import Mathlib

/-!
Verification of the cloth-simulation orchestration core of the
`programming-courses` repository (WebGPU PBD cloth, `pbd-cloth-webgpu-2`).

The development shallowly embeds:
* the PBD neighbor-averaging compute kernel (WGSL, `src/unnamed/part_000`),
  over exact rationals;
* the Mass-Spring distance-constraint compute kernel (WGSL,
  `src/unnamed/part_008`), over the reals (it uses `length`, a square root);
* the grid builder `makeGrid` (`src/unnamed/part_009`);
* the ping-pong buffer indexing of `SimulationView.renderFrame` /
  `SimulationView.createCompute` (`src/pbd-cloth-webgpu-2/main.js`);
* the `Observable` pub-sub register, in both of its variants
  (`src/pbd-cloth-webgpu-2/js/observable.js`): the instrumented variant
  whose `emit` wraps each listener in try/catch, and the plain variant
  whose `emit` calls listeners bare;
* the frame-scheduler loop, in both of its variants
  (`src/pbd-cloth-webgpu-2/js/simulationController.js` with try/catch,
  and `src/pbd-cloth-webgpu-2/main.js` without).

Machine floats (`f32`) are embedded as exact `ℚ`/`ℝ` arithmetic; exceptions
are embedded as `Except`.
-/

/-- A 3-component vector, as WGSL `vec3<f32>`. -/
structure Vec3 (α : Type) where
  x : α
  y : α
  z : α
deriving Repr, DecidableEq

/-- A 4-component vector, as WGSL `vec4<f32>`: position plus the packed
pinned/mass flag in `w`. -/
structure Vec4 (α : Type) where
  x : α
  y : α
  z : α
  w : α
deriving Repr, DecidableEq

/-- The uniform parameter block of both compute shaders
(`struct Params { time, gravityEnabled, clothSize, spacing }`).
`clothSize` is stored already cast to an unsigned integer, as the kernels do
with `u32(params.clothSize)`. -/
structure Params (α : Type) where
  time : α
  gravityEnabled : α
  clothSize : ℕ
  spacing : α

/-- Neighbor lookup shared by both kernels: from particle `idx` in an
`n × n` grid, offset by `d = (dx, dy)`; `some nidx` when the WGSL bounds
check `nx >= 0 && ny >= 0 && nx < i32(size) && ny < i32(size)` passes,
with `nidx = u32(ny) * size + u32(nx)`. -/
def gridNeighborIdx (n idx : ℕ) (d : ℤ × ℤ) : Option ℕ :=
  let nx : ℤ := (idx % n : ℕ) + d.1
  let ny : ℤ := (idx / n : ℕ) + d.2
  if 0 ≤ nx ∧ 0 ≤ ny ∧ nx < (n : ℤ) ∧ ny < (n : ℤ) then
    some (ny * n + nx).toNat
  else
    none

/-- The 8 neighbor offsets `(dx, dy)` visited by the PBD kernel's double loop
(`dy` outer from -1 to 1, `dx` inner, skipping `(0,0)`). -/
def pbdOffsets : List (ℤ × ℤ) :=
  [(-1, -1), (0, -1), (1, -1), (-1, 0), (1, 0), (-1, 1), (0, 1), (1, 1)]

/-- The 4 neighbor offsets of the Mass-Spring kernel, in loop order:
`array(vec2(1,0), vec2(-1,0), vec2(0,1), vec2(0,-1))`. -/
def msOffsets : List (ℤ × ℤ) :=
  [(1, 0), (-1, 0), (0, 1), (0, -1)]

/-- Indices of the in-bounds grid neighbors the PBD kernel averages over. -/
def pbdNeighborIndices (n idx : ℕ) : List ℕ :=
  pbdOffsets.filterMap (gridNeighborIdx n idx)

/-- Indices of the in-bounds grid neighbors the Mass-Spring kernel relaxes
against. -/
def msNeighborIndices (n idx : ℕ) : List ℕ :=
  msOffsets.filterMap (gridNeighborIdx n idx)

/-- Accumulation `avg += inPositions[nidx].xyz` of the PBD kernel. -/
def vsum3 (l : List (Vec3 ℚ)) : Vec3 ℚ :=
  l.foldl (fun a b => ⟨a.x + b.x, a.y + b.y, a.z + b.z⟩) ⟨0, 0, 0⟩

/-- One invocation of the PBD neighbor-averaging kernel
(`src/unnamed/part_000`, `fn main`): out-of-range invocations return without
writing (the stored value is passed through unchanged); pinned particles
(`pos.w > 0.5`) are written back verbatim; otherwise gravity subtracts
`0.001` from `y` when enabled, and the position is blended toward the
average of the in-bounds neighbors by the relaxation factor `0.05`. -/
def pbdKernel (p : Params ℚ) (inP : ℕ → Vec4 ℚ) (idx : ℕ) : Vec4 ℚ :=
  let size := p.clothSize
  if size * size ≤ idx then inP idx else
  let pos := inP idx
  if 1/2 < pos.w then pos else
  let g0 : Vec3 ℚ := ⟨pos.x, pos.y, pos.z⟩
  let g1 : Vec3 ℚ := if 1/2 < p.gravityEnabled then ⟨g0.x, g0.y - 1/1000, g0.z⟩ else g0
  let nbrs := (pbdNeighborIndices size idx).map
    (fun j => (⟨(inP j).x, (inP j).y, (inP j).z⟩ : Vec3 ℚ))
  let count : ℚ := nbrs.length
  if 0 < count then
    let s := vsum3 nbrs
    let avg : Vec3 ℚ := ⟨s.x / count, s.y / count, s.z / count⟩
    let g2 : Vec3 ℚ := ⟨g1.x + (avg.x - g1.x) * (1/20),
                        g1.y + (avg.y - g1.y) * (1/20),
                        g1.z + (avg.z - g1.z) * (1/20)⟩
    ⟨g2.x, g2.y, g2.z, pos.w⟩
  else
    ⟨g1.x, g1.y, g1.z, pos.w⟩

/-- One full compute dispatch of the PBD kernel: every particle is updated
from the same read buffer into the write buffer (ping-pong). -/
def pbdStep (p : Params ℚ) (s : ℕ → Vec4 ℚ) : ℕ → Vec4 ℚ :=
  fun idx => pbdKernel p s idx

/-- `k` integration steps of the PBD kernel, swapping buffers between
steps. -/
def pbdSteps (p : Params ℚ) (s : ℕ → Vec4 ℚ) : ℕ → ℕ → Vec4 ℚ
  | 0 => s
  | k + 1 => pbdStep p (pbdSteps p s k)

/-- The flat rest grid uploaded by `SimulationView.initBuffers`
(`src/pbd-cloth-webgpu-2/main.js`): `px = (x - clothSize/2)*spacing`,
`py = 0`, `pz = (y - clothSize/2)*spacing`, with the corner-pinning
predicate disabled (`w = 0`), matching the spec scenario with no pinned
vertices. -/
def flatGrid (n : ℕ) (s : ℚ) : ℕ → Vec4 ℚ :=
  fun idx => ⟨((idx % n : ℕ) - (n : ℚ)/2) * s, 0, ((idx / n : ℕ) - (n : ℚ)/2) * s, 0⟩

/-- The parameter block of the gravity-on scenario: `gravityEnabled = 1`. -/
def gravityOnParams (n : ℕ) (s : ℚ) : Params ℚ :=
  { time := 0, gravityEnabled := 1, clothSize := n, spacing := s }

/-- Componentwise vector subtraction `a - b`, as the WGSL expression
`neighbor - newPos`. -/
def sub3 (a b : Vec3 ℝ) : Vec3 ℝ :=
  ⟨a.x - b.x, a.y - b.y, a.z - b.z⟩

/-- WGSL `length`: the Euclidean norm of a `vec3`. -/
noncomputable def len3 (v : Vec3 ℝ) : ℝ :=
  Real.sqrt (v.x ^ 2 + v.y ^ 2 + v.z ^ 2)

/-- Distance between two particle positions. -/
noncomputable def dist3 (a b : Vec3 ℝ) : ℝ :=
  len3 (sub3 b a)

/-- `let stiffness = 0.1;` of the Mass-Spring kernel. -/
noncomputable def msStiffness : ℝ := 1/10

/-- The per-edge correction of the Mass-Spring kernel
(`src/unnamed/part_008`, loop body): with `dir = neighbor - newPos` and
`dist = length(dir)`, when `dist > 0.0` move `newPos` by
`(dir / dist) * (dist - rest) * stiffness`; otherwise leave it unchanged. -/
noncomputable def msCorrect (rest : ℝ) (np nb : Vec3 ℝ) : Vec3 ℝ :=
  let dir := sub3 nb np
  let dist := len3 dir
  if 0 < dist then
    ⟨np.x + dir.x / dist * (dist - rest) * msStiffness,
     np.y + dir.y / dist * (dist - rest) * msStiffness,
     np.z + dir.z / dist * (dist - rest) * msStiffness⟩
  else
    np

/-- One invocation of the Mass-Spring distance-constraint kernel
(`src/unnamed/part_008`, `fn main`): out-of-range invocations return without
writing; pinned particles (`pos.w > 0.5`) are written back verbatim;
otherwise gravity subtracts `0.001` from `y` when enabled and the position
is corrected sequentially against each in-bounds axis neighbor with rest
length `params.spacing` (the loop mutates `newPos`, so later edges see the
already-corrected position). -/
noncomputable def msKernel (p : Params ℝ) (inP : ℕ → Vec4 ℝ) (idx : ℕ) : Vec4 ℝ :=
  let size := p.clothSize
  if size * size ≤ idx then inP idx else
  let pos := inP idx
  if 1/2 < pos.w then pos else
  let g0 : Vec3 ℝ := ⟨pos.x, pos.y, pos.z⟩
  let g1 : Vec3 ℝ := if 1/2 < p.gravityEnabled then ⟨g0.x, g0.y - 1/1000, g0.z⟩ else g0
  let out := ((msNeighborIndices size idx).map
      (fun j => (⟨(inP j).x, (inP j).y, (inP j).z⟩ : Vec3 ℝ))).foldl
    (fun np nb => msCorrect p.spacing np nb) g1
  ⟨out.x, out.y, out.z, pos.w⟩

/-- One full compute dispatch of the Mass-Spring kernel (ping-pong). -/
noncomputable def msStep (p : Params ℝ) (s : ℕ → Vec4 ℝ) : ℕ → Vec4 ℝ :=
  fun idx => msKernel p s idx

/-- `k` integration steps of the Mass-Spring kernel. -/
noncomputable def msSteps (p : Params ℝ) (s : ℕ → Vec4 ℝ) : ℕ → ℕ → Vec4 ℝ
  | 0 => s
  | k + 1 => msStep p (msSteps p s k)

/-- `indexPos` of `makeGrid` (`src/unnamed/part_009`): `i + j * n`. -/
def idxPos (n i j : ℕ) : ℕ := i + j * n

/-- The canonical unordered key of an edge, as `makeGrid`'s
`key = a < b ? a_b : b_a`. -/
def edgeKey (a b : ℕ) : ℕ × ℕ :=
  if a < b then (a, b) else (b, a)

/-- `addEdge` of `makeGrid`: self-edges are dropped, and an edge whose
unordered key is already present is not inserted again. -/
def addEdge (es : List (ℕ × ℕ)) (a b : ℕ) : List (ℕ × ℕ) :=
  if a = b then es
  else if es.any (fun e => edgeKey e.1 e.2 = edgeKey a b) then es
  else es ++ [(a, b)]

/-- The edge list of `makeGrid`: for each grid cell `(i, j)` the six edges of
the two triangles `(a,b,d)` and `(a,d,c)`, inserted in program order
through `addEdge`. -/
def makeGridEdges (n : ℕ) : List (ℕ × ℕ) :=
  (List.range (n - 1)).foldl (fun es j =>
    (List.range (n - 1)).foldl (fun es i =>
      let a := idxPos n i j
      let b := idxPos n (i + 1) j
      let c := idxPos n i (j + 1)
      let d := idxPos n (i + 1) (j + 1)
      addEdge (addEdge (addEdge (addEdge (addEdge (addEdge es a b) b d) d a) a d) d c) c a)
      es)
    []

/-- The particle positions of `makeGrid`, one triple per particle, row by
row (`j` outer, `i` inner): `x = i*stepX - sx/2`, `y = j*stepY - sy/2`,
`z = 0`, with `stepX = stepY = size/(n-1)`.  (For `n = 1` JavaScript
produces `Infinity`/`NaN` coordinates here where rational division by zero
yields `0`; only the list's length matters to the claims below.) -/
def makeGridPositions (n : ℕ) (size : ℚ) : List (ℚ × ℚ × ℚ) :=
  let step : ℚ := size / ((n : ℚ) - 1)
  (List.range n).flatMap (fun j =>
    (List.range n).map (fun (i : ℕ) =>
      ((i : ℚ) * step - size / 2, (j : ℚ) * step - size / 2, (0 : ℚ))))

/-- The record returned by `makeGrid`. -/
structure Grid where
  positions : List (ℚ × ℚ × ℚ)
  pinned : ℕ → Bool
  edges : List (ℕ × ℕ)
  n : ℕ

/-- `makeGrid(n, size)` (`src/unnamed/part_009`): builds the centered `n × n`
particle grid, pins the four corners, and generates the deduplicated edge
list.  There is no validation of `n`: every call returns a `Grid`. -/
def makeGrid (n : ℕ) (size : ℚ) : Grid :=
  { positions := makeGridPositions n size
    pinned := fun k =>
      k = idxPos n 0 0 || k = idxPos n (n - 1) 0 ||
      k = idxPos n 0 (n - 1) || k = idxPos n (n - 1) (n - 1)
    edges := makeGridEdges n
    n := n }

/-- The position buffer the compute pass reads in frame `f`:
`SimulationView.renderFrame` binds `bindGroups[frameCount % 2]`, and
`createCompute` builds `bindGroups[i]` with `posBuffers[i]` at the read
binding (slot 1). -/
def computeReadBuffer (f : ℕ) : ℕ := f % 2

/-- The position buffer the compute pass writes in frame `f`:
`bindGroups[i]` has `posBuffers[(i + 1) % 2]` at the write binding
(slot 2). -/
def computeWriteBuffer (f : ℕ) : ℕ := (f % 2 + 1) % 2

/-- The position buffer the render pass reads in frame `f`:
`pass.setVertexBuffer(0, posBuffers[(frameCount + 1) % 2])`. -/
def renderReadBuffer (f : ℕ) : ℕ := (f + 1) % 2

/-- `SimulationController`'s frame counter: it starts at 0 and the loop
increments it once per rendered frame. -/
def frameCountAfter : ℕ → ℕ
  | 0 => 0
  | k + 1 => frameCountAfter k + 1

/-- The `Observable` pub-sub register: a map from event names to listener
lists.  A listener is embedded as a state transformer that may throw
(`Except`); the state stands for everything a callback can observe and
mutate. -/
structure Observable (σ ε : Type) where
  listeners : String → List (σ → Except ε σ)

/-- A fresh `Observable`: `this.listeners = {}`. -/
def emptyObservable (σ ε : Type) : Observable σ ε :=
  ⟨fun _ => []⟩

/-- `Observable.on(event, cb)`: append `cb` to the event's listener list
(creating it when absent). -/
def Observable.on (ob : Observable σ ε) (event : String) (cb : σ → Except ε σ) :
    Observable σ ε :=
  ⟨fun e => if e = event then ob.listeners e ++ [cb] else ob.listeners e⟩

/-- The listener sweep of the instrumented `emit`
(`src/pbd-cloth-webgpu-2/js/observable.js`, try/catch variant): each
listener runs in order inside `try { cb(data) } catch (error) { log }`, so
a throwing listener is logged and skipped and the sweep continues with the
state it left. -/
def runListenersSafe (hs : List (σ → Except ε σ)) (s : σ) : σ :=
  hs.foldl (fun st cb =>
    match cb st with
    | .ok st2 => st2
    | .error _ => st) s

/-- The listener sweep of the plain `emit`
(`(this.listeners[event] || []).forEach(cb => cb(data))`, as in
`src/pbd-cloth-webgpu-2/main.js` and the plain `observable.js` variant):
no try/catch, so the first exception aborts the sweep and propagates. -/
def runListenersPlain : List (σ → Except ε σ) → σ → Except ε σ
  | [], s => .ok s
  | cb :: rest, s =>
    match cb s with
    | .ok s2 => runListenersPlain rest s2
    | .error e => .error e

/-- `emit` of the instrumented `Observable` variant. -/
def emitSafe (ob : Observable σ ε) (event : String) (s : σ) : σ :=
  runListenersSafe (ob.listeners event) s

/-- `emit` of the plain `Observable` variant. -/
def emitPlain (ob : Observable σ ε) (event : String) (s : σ) : Except ε σ :=
  runListenersPlain (ob.listeners event) s

/-- One iteration of the guarded frame loop
(`src/pbd-cloth-webgpu-2/js/simulationController.js`):
`try { view.renderFrame(fc) } catch (error) { log }` then `frameCount++`
and `requestAnimationFrame(loop)`.  The result is the new frame counter
and whether the next frame was scheduled. -/
def loopIterGuarded (view : ℕ → Except ε Unit) (fc : ℕ) : ℕ × Bool :=
  match view fc with
  | .ok _ => (fc + 1, true)
  | .error _ => (fc + 1, true)

/-- One iteration of the unguarded frame loop
(`src/pbd-cloth-webgpu-2/main.js` `SimulationController.start` and
`src/unnamed/part_003`): `view.renderFrame(frameCount++)` then
`requestAnimationFrame(loop)`, with no try/catch, so an exception thrown
by `renderFrame` escapes the callback before the next frame is
scheduled. -/
def loopIterPlain (view : ℕ → Except ε Unit) (fc : ℕ) : Except ε (ℕ × Bool) :=
  match view fc with
  | .ok _ => .ok (fc + 1, true)
  | .error e => .error e

/-- The frame counter after `k` iterations of the guarded loop. -/
def guardedFrames (view : ℕ → Except ε Unit) : ℕ → ℕ
  | 0 => 0
  | k + 1 => (loopIterGuarded view (guardedFrames view k)).1


/-! ## Helper lemmas -/

/-- Both branches of the PBD kernel write the particle's `w` flag back
unchanged. -/
theorem pbdKernel_w (p : Params ℚ) (s : ℕ → Vec4 ℚ) (idx : ℕ) :
    (pbdKernel p s idx).w = (s idx).w := by
  simp only [pbdKernel]
  split_ifs <;> rfl

/-- Both branches of the Mass-Spring kernel write the particle's `w` flag
back unchanged. -/
theorem msKernel_w (p : Params ℝ) (s : ℕ → Vec4 ℝ) (idx : ℕ) :
    (msKernel p s idx).w = (s idx).w := by
  simp only [msKernel]
  split_ifs <;> rfl

/-- A pinned particle (`pos.w > 0.5`) is passed through unmodified by one
PBD kernel invocation. -/
theorem pbdKernel_pinned (p : Params ℚ) (s : ℕ → Vec4 ℚ) (idx : ℕ)
    (h : 1/2 < (s idx).w) : pbdKernel p s idx = s idx := by
  simp only [pbdKernel]
  split_ifs <;> rfl

/-- A pinned particle (`pos.w > 0.5`) is passed through unmodified by one
Mass-Spring kernel invocation. -/
theorem msKernel_pinned (p : Params ℝ) (s : ℕ → Vec4 ℝ) (idx : ℕ)
    (h : 1/2 < (s idx).w) : msKernel p s idx = s idx := by
  simp only [msKernel]
  split_ifs <;> rfl

/-- Folding the PBD accumulation over vectors with zero `y` components
leaves the accumulator's `y` unchanged. -/
theorem foldl_sum_y (l : List (Vec3 ℚ)) (h : ∀ v ∈ l, v.y = 0) :
    ∀ acc : Vec3 ℚ,
      (l.foldl (fun a b => (⟨a.x + b.x, a.y + b.y, a.z + b.z⟩ : Vec3 ℚ)) acc).y = acc.y := by
  induction l with
  | nil => intro acc; rfl
  | cons hd tl ih =>
    intro acc
    rw [List.foldl_cons, ih (fun v hv => h v (List.mem_cons_of_mem hd hv))]
    show acc.y + hd.y = acc.y
    rw [h hd (List.mem_cons_self hd tl), add_zero]

/-- The neighbor sum of a list of vectors with zero `y` components has a
zero `y` component. -/
theorem vsum3_y_zero (l : List (Vec3 ℚ)) (h : ∀ v ∈ l, v.y = 0) : (vsum3 l).y = 0 :=
  foldl_sum_y l h ⟨0, 0, 0⟩

/-- The well-formedness invariant of `makeGrid`'s edge accumulator: no
self-edges, and no two entries share an unordered key. -/
def edgeListOK (es : List (ℕ × ℕ)) : Prop :=
  (∀ e ∈ es, e.1 ≠ e.2) ∧ (es.map (fun e => edgeKey e.1 e.2)).Nodup

/-- `addEdge` preserves the edge-list invariant. -/
theorem addEdge_ok (es : List (ℕ × ℕ)) (a b : ℕ) (h : edgeListOK es) :
    edgeListOK (addEdge es a b) := by
  unfold addEdge
  split_ifs with h1 h2
  · exact h
  · exact h
  · obtain ⟨hne, hnd⟩ := h
    constructor
    · intro e he
      rcases List.mem_append.1 he with h3 | h3
      · exact hne e h3
      · simp only [List.mem_singleton] at h3
        subst h3
        exact h1
    · rw [List.map_append, List.map_singleton, List.nodup_append]
      refine ⟨hnd, List.nodup_singleton _, ?_⟩
      intro k hk hk2
      simp only [List.mem_singleton] at hk2
      subst hk2
      rcases List.mem_map.1 hk with ⟨e, he, hke⟩
      exact h2 (List.any_eq_true.2 ⟨e, he, decide_eq_true hke⟩)

/-- A property preserved by each fold step holds for the whole fold. -/
theorem foldl_preserve {β γ : Type} (P : β → Prop) (f : β → γ → β)
    (h : ∀ b c, P b → P (f b c)) :
    ∀ (l : List γ) (b : β), P b → P (l.foldl f b) := by
  intro l
  induction l with
  | nil => exact fun b hb => hb
  | cons c t ih => exact fun b hb => ih _ (h b c hb)

/-- The edge list produced by `makeGrid` satisfies the invariant for every
grid size. -/
theorem makeGridEdges_ok (n : ℕ) : edgeListOK (makeGridEdges n) := by
  unfold makeGridEdges
  apply foldl_preserve
  · intro es j hes
    apply foldl_preserve
    · intro es2 i hes2
      exact addEdge_ok _ _ _ (addEdge_ok _ _ _ (addEdge_ok _ _ _ (addEdge_ok _ _ _
        (addEdge_ok _ _ _ (addEdge_ok _ _ _ hes2)))))
    · exact hes
  · exact ⟨fun e he => absurd he (List.not_mem_nil e), List.nodup_nil⟩

/-- Length of a `flatMap` whose pieces all have the same length. -/
theorem length_flatMap_const {a b : Type} (l : List a) (f : a → List b) (m : ℕ)
    (h : ∀ x ∈ l, (f x).length = m) : (l.flatMap f).length = l.length * m := by
  induction l with
  | nil => simp
  | cons hd tl ih =>
    rw [List.flatMap_cons, List.length_append, h hd (by simp),
      ih (fun x hx => h x (by simp [hx])), List.length_cons, Nat.succ_mul, Nat.add_comm]

/-- `makeGrid` lays out one position triple per grid point. -/
theorem makeGridPositions_length (n : ℕ) (s : ℚ) :
    (makeGridPositions n s).length = n * n := by
  unfold makeGridPositions
  refine Eq.trans (length_flatMap_const _ _ n ?_) ?_
  · intro j hj
    rw [List.length_map, List.length_range]
  · rw [List.length_range]

/-- The guarded loop iteration always increments the frame counter and
schedules the next frame, whatever `renderFrame` did. -/
theorem loopIterGuarded_fst (view : ℕ → Except ε Unit) (fc : ℕ) :
    loopIterGuarded view fc = (fc + 1, true) := by
  unfold loopIterGuarded
  cases view fc <;> rfl

/-- When the edge direction has zero length the Mass-Spring correction
leaves the position untouched (the `dist > 0.0` guard fails). -/
theorem msCorrect_len_zero (rest : ℝ) (np nb : Vec3 ℝ) (h : len3 (sub3 nb np) = 0) :
    msCorrect rest np nb = np := by
  simp only [msCorrect, h, lt_irrefl, if_false]

/-- The length of an edge direction does not depend on its orientation. -/
theorem len3_swap (u v : Vec3 ℝ) : len3 (sub3 u v) = len3 (sub3 v u) := by
  simp only [len3, sub3]
  congr 1
  ring

/-! ## Claim theorems -/

/-- Claim C1: a particle whose pinned flag (the 4th component of its
position vector) is set is never modified by the integration step: after
any number `k` of steps of either compute kernel (PBD neighbor-averaging or
Mass-Spring distance-constraint) its position vector equals its initial
one. -/
theorem pinned_particles_fixed (pQ : Params ℚ) (sQ : ℕ → Vec4 ℚ)
    (pR : Params ℝ) (sR : ℕ → Vec4 ℝ) (idx k : ℕ) :
    (1/2 < (sQ idx).w → pbdSteps pQ sQ k idx = sQ idx) ∧
    (1/2 < (sR idx).w → msSteps pR sR k idx = sR idx) := by
  constructor
  · intro h
    induction k with
    | zero => rfl
    | succ k ih =>
      rw [pbdSteps, pbdStep, pbdKernel_pinned pQ _ idx (by rw [ih]; exact h), ih]
  · intro h
    induction k with
    | zero => rfl
    | succ k ih =>
      rw [msSteps, msStep, msKernel_pinned pR _ idx (by rw [ih]; exact h), ih]

/-- Witness for C1: a concretely pinned particle (`w = 1`) is unchanged by 3
steps of either kernel. -/
theorem pinned_particles_fixed_witness :
    ((1:ℚ)/2 < ((fun _ => (⟨0,0,0,1⟩ : Vec4 ℚ)) (0:ℕ) : Vec4 ℚ).w ∧
     (1:ℝ)/2 < ((fun _ => (⟨0,0,0,1⟩ : Vec4 ℝ)) (0:ℕ) : Vec4 ℝ).w) ∧
    pbdSteps (gravityOnParams 2 1) (fun _ => ⟨0,0,0,1⟩) 3 0 = ⟨0,0,0,1⟩ ∧
    msSteps ⟨0,1,2,1⟩ (fun _ => ⟨0,0,0,1⟩) 3 0 = ⟨0,0,0,1⟩ := by
  refine ⟨⟨by norm_num, by norm_num⟩, ?_, ?_⟩
  · exact (pinned_particles_fixed (gravityOnParams 2 1) (fun _ => ⟨0,0,0,1⟩) ⟨0,1,2,1⟩
      (fun _ => ⟨0,0,0,1⟩) 0 3).1 (by norm_num)
  · exact (pinned_particles_fixed (gravityOnParams 2 1) (fun _ => ⟨0,0,0,1⟩) ⟨0,1,2,1⟩
      (fun _ => ⟨0,0,0,1⟩) 0 3).2 (by norm_num)

/-- Claim C2: on a flat unpinned grid with gravity enabled, one PBD step
decreases the `y` coordinate of every particle that has at least one
neighbor, and the magnitude of the `y` displacement lies strictly between 0
and the raw gravity decrement `0.001` (it is exactly `0.00095 =
0.001 * (1 - 0.05)`). -/
theorem pbd_flat_gravity_first_step (n : ℕ) (s : ℚ) (idx : ℕ) (h1 : idx < n * n)
    (h2 : 0 < (pbdNeighborIndices n idx).length) :
    (pbdStep (gravityOnParams n s) (flatGrid n s) idx).y < (flatGrid n s idx).y ∧
    0 < (flatGrid n s idx).y - (pbdStep (gravityOnParams n s) (flatGrid n s) idx).y ∧
    (flatGrid n s idx).y - (pbdStep (gravityOnParams n s) (flatGrid n s) idx).y < 1/1000 := by
  have hyflat : ∀ j, (flatGrid n s j).y = 0 := fun j => rfl
  have key : (pbdStep (gravityOnParams n s) (flatGrid n s) idx).y = -(19/20000) := by
    have hnb : ∀ v ∈ (pbdNeighborIndices n idx).map
        (fun j => (⟨(flatGrid n s j).x, (flatGrid n s j).y, (flatGrid n s j).z⟩ : Vec3 ℚ)),
        v.y = 0 := by
      intro v hv
      rcases List.mem_map.1 hv with ⟨j, hj, rfl⟩
      exact hyflat j
    have hA : ¬ (n * n ≤ idx) := by omega
    have hw0 : (flatGrid n s idx).w = 0 := rfl
    have hpin : ¬ ((1:ℚ)/2 < 0) := by norm_num
    have hgrav : (1:ℚ)/2 < 1 := by norm_num
    have hcount : (0:ℚ) < (((pbdNeighborIndices n idx).map
        (fun j => (⟨(flatGrid n s j).x, (flatGrid n s j).y, (flatGrid n s j).z⟩ : Vec3 ℚ))).length : ℚ) := by
      rw [List.length_map]
      exact_mod_cast h2
    simp only [pbdStep, pbdKernel, gravityOnParams, hw0, if_neg hA, if_neg hpin,
      if_pos hgrav, if_pos hcount]
    rw [vsum3_y_zero _ hnb]
    simp only [hyflat, zero_div]
    norm_num
  rw [hyflat idx, key]
  norm_num

/-- Witness for C2: the spec scenario `n = 8`, spacing `0.1`, corner
particle 0 (3 neighbors). -/
theorem pbd_flat_gravity_first_step_witness :
    (0:ℕ) < 8 * 8 ∧ 0 < (pbdNeighborIndices 8 0).length ∧
    ((pbdStep (gravityOnParams 8 (1/10)) (flatGrid 8 (1/10)) 0).y < (flatGrid 8 (1/10) 0).y ∧
     0 < (flatGrid 8 (1/10) 0).y - (pbdStep (gravityOnParams 8 (1/10)) (flatGrid 8 (1/10)) 0).y ∧
     (flatGrid 8 (1/10) 0).y - (pbdStep (gravityOnParams 8 (1/10)) (flatGrid 8 (1/10)) 0).y < 1/1000) :=
  ⟨by decide, by decide, pbd_flat_gravity_first_step 8 (1/10) 0 (by decide) (by decide)⟩

/-- Claim C3: for a single isolated edge of two unpinned particles at
distance `0.2` with rest length `0.1` and stiffness `0.1`, one pass of the
Mass-Spring per-edge correction (both endpoints corrected from the read
buffer) yields distance exactly `0.18`: strictly smaller than `0.2` and
still above `0.1` (strict monotone convergence toward the rest length). -/
theorem ms_single_edge_converges (p q : Vec3 ℝ) (h : dist3 p q = 1/5) :
    dist3 (msCorrect (1/10) p q) (msCorrect (1/10) q p) = 9/50 ∧
    dist3 (msCorrect (1/10) p q) (msCorrect (1/10) q p) < dist3 p q ∧
    1/10 < dist3 (msCorrect (1/10) p q) (msCorrect (1/10) q p) := by
  have hdist : len3 (sub3 q p) = 1/5 := h
  have hdist2 : len3 (sub3 p q) = 1/5 := by rw [len3_swap p q]; exact hdist
  have hSnn : (0:ℝ) ≤ (q.x - p.x)^2 + (q.y - p.y)^2 + (q.z - p.z)^2 := by positivity
  have hSval : (q.x - p.x)^2 + (q.y - p.y)^2 + (q.z - p.z)^2 = 1/25 := by
    have h5 : Real.sqrt ((q.x - p.x)^2 + (q.y - p.y)^2 + (q.z - p.z)^2) = 1/5 := hdist
    have hsq := Real.sq_sqrt hSnn
    rw [h5] at hsq
    rw [← hsq]
    norm_num
  have hp2 : msCorrect (1/10) p q =
      ⟨p.x + (q.x - p.x) / (1/5) * (1/5 - 1/10) * msStiffness,
       p.y + (q.y - p.y) / (1/5) * (1/5 - 1/10) * msStiffness,
       p.z + (q.z - p.z) / (1/5) * (1/5 - 1/10) * msStiffness⟩ := by
    simp only [msCorrect, hdist]
    rw [if_pos (by norm_num : (0:ℝ) < 1/5)]
    simp only [sub3]
  have hq2 : msCorrect (1/10) q p =
      ⟨q.x + (p.x - q.x) / (1/5) * (1/5 - 1/10) * msStiffness,
       q.y + (p.y - q.y) / (1/5) * (1/5 - 1/10) * msStiffness,
       q.z + (p.z - q.z) / (1/5) * (1/5 - 1/10) * msStiffness⟩ := by
    simp only [msCorrect, hdist2]
    rw [if_pos (by norm_num : (0:ℝ) < 1/5)]
    simp only [sub3]
  have hnew : dist3 (msCorrect (1/10) p q) (msCorrect (1/10) q p) = 9/50 := by
    rw [hp2, hq2]
    simp only [dist3, sub3, len3, msStiffness]
    have hE : (q.x + (p.x - q.x) / (1/5) * (1/5 - 1/10) * (1/10) -
          (p.x + (q.x - p.x) / (1/5) * (1/5 - 1/10) * (1/10)))^2 +
        (q.y + (p.y - q.y) / (1/5) * (1/5 - 1/10) * (1/10) -
          (p.y + (q.y - p.y) / (1/5) * (1/5 - 1/10) * (1/10)))^2 +
        (q.z + (p.z - q.z) / (1/5) * (1/5 - 1/10) * (1/10) -
          (p.z + (q.z - p.z) / (1/5) * (1/5 - 1/10) * (1/10)))^2 =
        (81/100) * ((q.x - p.x)^2 + (q.y - p.y)^2 + (q.z - p.z)^2) := by
      ring
    rw [hE, hSval]
    rw [show (81/100 : ℝ) * (1/25) = (9/50)^2 by norm_num]
    exact Real.sqrt_sq (by norm_num)
  refine ⟨hnew, ?_, ?_⟩
  · rw [hnew, h]
    norm_num
  · rw [hnew]
    norm_num

/-- Witness for C3: the concrete axis-aligned edge from the origin to
`(0.2, 0, 0)`. -/
theorem ms_single_edge_converges_witness :
    dist3 (⟨0,0,0⟩ : Vec3 ℝ) ⟨1/5,0,0⟩ = 1/5 ∧
    (dist3 (msCorrect (1/10) ⟨0,0,0⟩ ⟨1/5,0,0⟩) (msCorrect (1/10) ⟨1/5,0,0⟩ ⟨0,0,0⟩) = 9/50 ∧
     dist3 (msCorrect (1/10) ⟨0,0,0⟩ ⟨1/5,0,0⟩) (msCorrect (1/10) ⟨1/5,0,0⟩ ⟨0,0,0⟩) <
       dist3 (⟨0,0,0⟩ : Vec3 ℝ) ⟨1/5,0,0⟩ ∧
     1/10 < dist3 (msCorrect (1/10) ⟨0,0,0⟩ ⟨1/5,0,0⟩) (msCorrect (1/10) ⟨1/5,0,0⟩ ⟨0,0,0⟩)) := by
  have hd : dist3 (⟨0,0,0⟩ : Vec3 ℝ) ⟨1/5,0,0⟩ = 1/5 := by
    simp only [dist3, sub3, len3]
    rw [show ((1:ℝ)/5 - 0)^2 + ((0:ℝ) - 0)^2 + ((0:ℝ) - 0)^2 = (1/5)^2 by norm_num]
    exact Real.sqrt_sq (by norm_num)
  exact ⟨hd, ms_single_edge_converges ⟨0,0,0⟩ ⟨1/5,0,0⟩ hd⟩

/-- Claim C4: for every grid size `n ≥ 2` (and any overall size parameter),
`makeGrid` produces exactly `n * n` particles, and its edge list contains
no self-edges and no repeated unordered index pair. -/
theorem makeGrid_particle_count_and_edge_dedup (n : ℕ) (s : ℚ) (h : 2 ≤ n) :
    (makeGrid n s).positions.length = n * n ∧
    (∀ e ∈ (makeGrid n s).edges, e.1 ≠ e.2) ∧
    ((makeGrid n s).edges.map (fun e => edgeKey e.1 e.2)).Nodup :=
  ⟨makeGridPositions_length n s, (makeGridEdges_ok n).1, (makeGridEdges_ok n).2⟩

/-- Witness for C4: the `2 × 2` grid (4 particles, 5 deduplicated edges). -/
theorem makeGrid_particle_count_and_edge_dedup_witness :
    2 ≤ 2 ∧
    ((makeGrid 2 1).positions.length = 2 * 2 ∧
     (∀ e ∈ (makeGrid 2 1).edges, e.1 ≠ e.2) ∧
     ((makeGrid 2 1).edges.map (fun e => edgeKey e.1 e.2)).Nodup) :=
  ⟨by norm_num, makeGrid_particle_count_and_edge_dedup 2 1 (by norm_num)⟩

/-- Claim C5: the buffer roles toggle exactly once per frame.  The
controller's frame counter advances by one per frame; the compute pass of
frame `f` reads `posBuffers[f % 2]` and writes the other buffer, the render
pass reads the freshly written buffer, and the "current" (compute-read)
index returns to its frame-0 value after an even number of frames and is
the complement after an odd number. -/
theorem buffer_parity_toggle (k f : ℕ) :
    frameCountAfter k = k ∧
    computeReadBuffer (2 * k) = computeReadBuffer 0 ∧
    computeReadBuffer (2 * k + 1) = 1 - computeReadBuffer 0 ∧
    computeReadBuffer (f + 1) ≠ computeReadBuffer f ∧
    computeWriteBuffer f = (f + 1) % 2 ∧
    renderReadBuffer f = computeWriteBuffer f ∧
    computeReadBuffer f ≠ computeWriteBuffer f := by
  refine ⟨?_, ?_, ?_, ?_, ?_, ?_, ?_⟩ <;>
    first
    | (induction k with
        | zero => rfl
        | succ n ih => rw [frameCountAfter, ih])
    | (simp only [computeReadBuffer, computeWriteBuffer, renderReadBuffer]; omega)

/-- Counterexample for C6: in the plain `Observable` variant
(`src/pbd-cloth-webgpu-2/main.js`, and lines 47-51 of
`js/observable.js`), a listener that throws makes `emit` propagate the
exception to its caller, and the later-subscribed listener never runs
(its effect on the state is lost). -/
theorem plain_emit_stops_and_propagates :
    emitPlain
      (((emptyObservable (List ℕ) ℕ).on "g" (fun _ => Except.error 7)).on "g"
        (fun l => Except.ok (l ++ [1]))) "g" [] = Except.error 7 := by
  rfl

/-- Claim C6 (amended): in the instrumented `Observable` variant
(`js/observable.js` lines 25-45), `on` appends to the event's listener
list, `emit` runs the listeners synchronously in subscription order
(the sweep over a concatenation is the sweep of the first part followed by
the sweep of the second), and a listener that throws is isolated: the sweep
continues with the remaining listeners and `emit` itself never throws
(it is total with result type `σ`). -/
theorem safe_emit_order_and_isolation (σ ε : Type) (ob : Observable σ ε) (event : String)
    (hs1 hs2 rest : List (σ → Except ε σ)) (cb fail : σ → Except ε σ) (s : σ) (e : ε) :
    ((ob.on event cb).listeners event = ob.listeners event ++ [cb]) ∧
    (runListenersSafe (hs1 ++ hs2) s = runListenersSafe hs2 (runListenersSafe hs1 s)) ∧
    (fail s = .error e → runListenersSafe (fail :: rest) s = runListenersSafe rest s) := by
  refine ⟨?_, ?_, ?_⟩
  · simp [Observable.on]
  · simp [runListenersSafe, List.foldl_append]
  · intro h
    simp only [runListenersSafe, List.foldl_cons, h]

/-- Witness for C6 (amended): a concretely throwing first listener is
skipped and the sweep equals the sweep of the remaining listeners. -/
theorem safe_emit_order_and_isolation_witness :
    ((fun _ => Except.error 7 : List ℕ → Except ℕ (List ℕ)) [] = Except.error 7) ∧
    runListenersSafe [(fun _ => Except.error 7 : List ℕ → Except ℕ (List ℕ)),
        fun l => Except.ok (l ++ [1])] [] =
      runListenersSafe ([fun l => Except.ok (l ++ [1])] :
        List (List ℕ → Except ℕ (List ℕ))) [] :=
  ⟨rfl, (safe_emit_order_and_isolation (List ℕ) ℕ (emptyObservable (List ℕ) ℕ) "g" [] []
    [fun l => Except.ok (l ++ [1])] (fun l => Except.ok (l ++ [0]))
    (fun _ => Except.error 7) [] 7).2.2 rfl⟩

/-- Counterexample for C7: in the unguarded loop variant
(`src/pbd-cloth-webgpu-2/main.js` `SimulationController.start`,
`src/unnamed/part_003`), a throwing `renderFrame` makes the frame callback
terminate with the exception before `requestAnimationFrame` is reached:
the loop is not rescheduled. -/
theorem plain_loop_terminates_on_throw :
    loopIterPlain (fun _ => Except.error (3 : ℕ)) 0 = Except.error 3 := rfl

/-- Claim C7 (amended): in the guarded controller variant
(`js/simulationController.js`), an exception thrown by `renderFrame` is
caught at the frame boundary; the frame is skipped, the counter still
advances and the next animation-frame callback is still scheduled, so the
loop keeps running (`k` iterations complete for every `k`, whatever the
view does). -/
theorem guarded_loop_skips_frame_and_continues (view : ℕ → Except ε Unit) (fc k : ℕ)
    (e : ε) (h : view fc = .error e) :
    loopIterGuarded view fc = (fc + 1, true) ∧ guardedFrames view k = k := by
  constructor
  · rw [loopIterGuarded, h]
  · induction k with
    | zero => rfl
    | succ k ih => rw [guardedFrames, ih, loopIterGuarded_fst]

/-- Witness for C7 (amended): an always-throwing view still yields a
rescheduled frame and 5 completed loop iterations. -/
theorem guarded_loop_skips_frame_and_continues_witness :
    ((fun _ => Except.error 7 : ℕ → Except ℕ Unit) 0 = Except.error 7) ∧
    loopIterGuarded (fun _ => Except.error 7 : ℕ → Except ℕ Unit) 0 = (1, true) ∧
    guardedFrames (fun _ => Except.error 7 : ℕ → Except ℕ Unit) 5 = 5 :=
  ⟨rfl, (guarded_loop_skips_frame_and_continues (fun _ => Except.error 7) 0 5 7 rfl).1,
    (guarded_loop_skips_frame_and_continues (fun _ => Except.error 7) 0 5 7 rfl).2⟩

/-- Claim C8 (the code does not implement it): `makeGrid` performs no
validation of `n`.  For `n = 1` it returns normally with a single particle
and an empty edge list, and for `n = 0` with no particles and no edges —
the degenerate silent outcome the spec's fail-fast requirement forbids. -/
theorem makeGrid_small_n_returns_degenerate (s : ℚ) :
    (makeGrid 1 s).edges = [] ∧ (makeGrid 1 s).positions.length = 1 ∧
    (makeGrid 0 s).edges = [] ∧ (makeGrid 0 s).positions.length = 0 :=
  ⟨rfl, rfl, rfl, rfl⟩

/-- Claim C9: the Mass-Spring per-edge correction is guarded by
`dist > 0.0`: when the distance to the neighbor is zero — in particular
when the two particles occupy the same position — no correction is applied
and the position passes through, so the normalization `dir / dist` is never
a division by zero that reaches the output. -/
theorem ms_zero_distance_no_correction (rest : ℝ) (np nb : Vec3 ℝ) :
    (len3 (sub3 nb np) = 0 → msCorrect rest np nb = np) ∧ msCorrect rest np np = np := by
  constructor
  · exact msCorrect_len_zero rest np nb
  · apply msCorrect_len_zero
    have h0 : sub3 np np = ⟨0, 0, 0⟩ := by simp [sub3]
    rw [h0]
    simp [len3]

/-- Witness for C9: two coincident concrete particles. -/
theorem ms_zero_distance_no_correction_witness :
    len3 (sub3 (⟨1,2,3⟩ : Vec3 ℝ) ⟨1,2,3⟩) = 0 ∧
    msCorrect 1 (⟨1,2,3⟩ : Vec3 ℝ) ⟨1,2,3⟩ = ⟨1,2,3⟩ := by
  have h0 : len3 (sub3 (⟨1,2,3⟩ : Vec3 ℝ) ⟨1,2,3⟩) = 0 := by
    rw [show sub3 (⟨1,2,3⟩ : Vec3 ℝ) ⟨1,2,3⟩ = ⟨0,0,0⟩ by simp [sub3]]
    simp [len3]
  exact ⟨h0, (ms_zero_distance_no_correction 1 ⟨1,2,3⟩ ⟨1,2,3⟩).1 h0⟩

/-- Claim C10: both compute kernels write the 4th component (pinned/mass
flag) of every particle's position vector through to the output unchanged,
for pinned and unpinned particles alike, over any number of steps. -/
theorem w_flag_invariant (pQ : Params ℚ) (sQ : ℕ → Vec4 ℚ)
    (pR : Params ℝ) (sR : ℕ → Vec4 ℝ) (idx k : ℕ) :
    (pbdSteps pQ sQ k idx).w = (sQ idx).w ∧ (msSteps pR sR k idx).w = (sR idx).w := by
  constructor
  · induction k with
    | zero => rfl
    | succ k ih => rw [pbdSteps, pbdStep, pbdKernel_w, ih]
  · induction k with
    | zero => rfl
    | succ k ih => rw [msSteps, msStep, msKernel_w, ih]
